import Mathlib

/-!
Verification development for the Minecraft crossplay server manager
(`MinecraftCrossplayServer`). The JavaScript source is shallowly embedded:
pure parsing helpers become Lean functions, the mutable singleton state
becomes explicit state passing, and the filesystem the code manipulates
through the Node `fs` module becomes an explicit directory tree carried in
the state. Fallible filesystem calls return in an error-or-value monad that
mirrors thrown exceptions caught by try/catch.
-/

set_option maxHeartbeats 1000000

namespace HostMC

/-- Log categories used by `broadcastLog` and `parseMinecraftLog`
(the `type` field of a log entry). -/
inductive LogType where
  | info
  | warn
  | error
  | success
  | player
  | world
  deriving DecidableEq, Repr

/-- The `server` block of `config.json` (`createDefaultConfig`). Fields that
are only read by the `server.properties` renderer (description, pvp,
command-block, nether/end, spawn protection, view/simulation distance,
online mode, whitelist, resource pack) are omitted: that renderer is pure
string formatting with no decision logic and no claim reads those fields. -/
structure ServerCfg where
  seed : String := ""
  gamemode : String := "survival"
  difficulty : String := "easy"
  maxPlayers : Nat := 20
  levelName : String := "world"
  deriving DecidableEq, Repr

/-- The `performance` block of `config.json`. -/
structure PerformanceCfg where
  maxMemory : String := "3G"
  minMemory : String := "1G"
  deriving DecidableEq, Repr

/-- The `playit` block of `config.json`. -/
structure PlayitCfg where
  autoStart : Bool := true
  deriving DecidableEq, Repr

/-- The `world` tracking block of `config.json`. -/
structure WorldCfg where
  currentSeed : String := ""
  lastUsedSeed : String := ""
  worldGenerated : Bool := false
  deriving DecidableEq, Repr

/-- The configuration document. The `world` block is optional, mirroring the
JavaScript object where `this.config.world` may be absent (legacy config). -/
structure Config where
  server : ServerCfg := {}
  performance : PerformanceCfg := {}
  playit : PlayitCfg := {}
  world : Option WorldCfg := none
  deriving DecidableEq, Repr

/-- A filesystem path, as the list of its components. -/
abbrev Path := List String

/-- A filesystem tree: a file with contents, or a directory with a list of
named children (the list order models directory listing order). -/
inductive FsNode where
  | file (content : String)
  | dir (entries : List (String × FsNode))

/-- Look up a name in a directory entry list. -/
def findEntry : List (String × FsNode) → String → Option FsNode
  | [], _ => none
  | e :: es, a => if e.fst = a then some e.snd else findEntry es a

/-- Replace the entry named `a` (appending it if absent). -/
def replaceEntry : List (String × FsNode) → String → FsNode → List (String × FsNode)
  | [], a, v => [(a, v)]
  | e :: es, a, v => if e.fst = a then (a, v) :: es else e :: replaceEntry es a v

/-- Remove the entry named `a` if present. -/
def dropEntry : List (String × FsNode) → String → List (String × FsNode)
  | [], _ => []
  | e :: es, a => if e.fst = a then es else e :: dropEntry es a

/-- Resolve a path inside a tree. -/
def FsNode.lookup : FsNode → Path → Option FsNode
  | n, [] => some n
  | .file _, _ :: _ => none
  | .dir es, a :: rest =>
    match findEntry es a with
    | some c => c.lookup rest
    | none => none

/-- Semantics of `fs.mkdirSync(p, recursive)` on a tree: create every missing
directory along the path; `none` (an error) if a file is in the way. -/
def mkdirsNode : FsNode → Path → Option FsNode
  | .dir es, [] => some (.dir es)
  | .file _, [] => none
  | .file _, _ :: _ => none
  | .dir es, a :: rest =>
    match findEntry es a with
    | some c => (mkdirsNode c rest).map fun c' => .dir (replaceEntry es a c')
    | none => (mkdirsNode (.dir []) rest).map fun c' => .dir (es ++ [(a, c')])

/-- Write a node at a path whose parent directories already exist;
`none` (an error) if an intermediate component is missing or is a file. -/
def setAtNode : FsNode → Path → FsNode → Option FsNode
  | _, [], v => some v
  | .file _, _ :: _, _ => none
  | .dir es, [a], v =>
    match findEntry es a with
    | some c => (setAtNode c [] v).map fun c' => .dir (replaceEntry es a c')
    | none => some (.dir (es ++ [(a, v)]))
  | .dir es, a :: b :: rest, v =>
    match findEntry es a with
    | some c => (setAtNode c (b :: rest) v).map fun c' => .dir (replaceEntry es a c')
    | none => none

/-- Remove the subtree at a path (no effect if the path is missing). -/
def removeAtNode : FsNode → Path → FsNode
  | n, [] => n
  | .file c, _ :: _ => .file c
  | .dir es, [a] => .dir (dropEntry es a)
  | .dir es, a :: b :: rest =>
    match findEntry es a with
    | some c => .dir (replaceEntry es a (removeAtNode c (b :: rest)))
    | none => .dir es

/-- Two paths diverge when they differ at some component that both have;
equivalently neither is a prefix of the other. A mutation whose target
diverges from `q` cannot affect what `q` resolves to. -/
def pathsDiverge : Path → Path → Bool
  | a :: as, b :: bs => a != b || pathsDiverge as bs
  | _, _ => false

/-- Events recording the mutating filesystem calls the code performs, in
execution order. Read-only calls (exists/stat/readdir) are not recorded. -/
inductive FsEvent where
  | mkdir (p : Path)
  | copyFile (src dest : Path)
  | rm (p : Path)
  deriving DecidableEq, Repr

/-- Whether an event is a recursive-delete call. -/
def FsEvent.isRm : FsEvent → Bool
  | .rm _ => true
  | _ => false

/-- The state seen by the seed-change / world-backup logic: the filesystem
tree, a set of fault-injected paths at which mutating calls throw (modelling
an unwritable destination or an undeletable directory), the trace of mutating
calls performed so far, the in-memory configuration, the configuration last
written to disk by `saveConfig` (the write itself is modelled as always
succeeding: per the spec, config-file marshalling mechanics are an external
collaborator), and the timestamp string the next `new Date().toISOString()`
returns. -/
structure Guard where
  root : FsNode
  failPaths : List Path := []
  trace : List FsEvent := []
  config : Config := {}
  savedConfig : Config := {}
  now : String := ""

/-- The monad of the filesystem-touching code: state threading plus thrown
errors. A thrown error keeps the mutations performed before the throw,
exactly as a JavaScript exception caught by try/catch does. -/
abbrev FsM (α : Type) : Type := Guard → Except String α × Guard

def FsM.pure (a : α) : FsM α := fun g => (.ok a, g)

def FsM.bind (x : FsM α) (f : α → FsM β) : FsM β := fun g =>
  match x g with
  | (.ok a, g') => f a g'
  | (.error e, g') => (.error e, g')

instance : Monad FsM where
  pure := FsM.pure
  bind := FsM.bind

/-- Semantics of a try/catch block around a filesystem computation. -/
def FsM.tryCatchF (x : FsM α) (h : String → FsM α) : FsM α := fun g =>
  match x g with
  | (.error e, g') => h e g'
  | (.ok a, g') => (.ok a, g')

def FsM.get : FsM Guard := fun g => (.ok g, g)

def FsM.modifyG (f : Guard → Guard) : FsM Unit := fun g => (.ok (), f g)

@[simp] theorem FsM.bind_eq (x : FsM α) (f : α → FsM β) : x >>= f = FsM.bind x f := rfl

@[simp] theorem FsM.pure_eq (a : α) : (Pure.pure a : FsM α) = FsM.pure a := rfl

/-- `fs.existsSync(p)`. -/
def existsSync (p : Path) : FsM Bool := fun g => (.ok (g.root.lookup p).isSome, g)

/-- `fs.mkdirSync(p, recursive)`: throws at a fault-injected path or when a
file blocks the path. -/
def mkdirSyncRec (p : Path) : FsM Unit := fun g =>
  if g.failPaths.contains p then (.error "EACCES mkdir", g)
  else
    match mkdirsNode g.root p with
    | some r => (.ok (), { g with root := r, trace := g.trace ++ [.mkdir p] })
    | none => (.error "EEXIST mkdir", g)

/-- `fs.copyFileSync(src, dest)`: throws if the source is missing or a
directory, if the destination is an existing directory or fault-injected,
or if the destination parent is missing. -/
def copyFileSync (src dest : Path) : FsM Unit := fun g =>
  if g.failPaths.contains dest then (.error "EACCES copyfile", g)
  else
    match g.root.lookup src with
    | some (.file c) =>
      match g.root.lookup dest with
      | some (.dir _) => (.error "EISDIR copyfile", g)
      | _ =>
        match setAtNode g.root dest (.file c) with
        | some r => (.ok (), { g with root := r, trace := g.trace ++ [.copyFile src dest] })
        | none => (.error "ENOENT copyfile", g)
    | some (.dir _) => (.error "EISDIR copyfile", g)
    | none => (.error "ENOENT copyfile", g)

/-- `fs.rmSync(p, recursive, force)`: modelled atomically — it either throws
at a fault-injected path with no effect, or removes the whole subtree.
Partial removal inside the one OS call is below this model's granularity. -/
def rmSyncRecForce (p : Path) : FsM Unit := fun g =>
  if g.failPaths.contains p then (.error "EACCES rm", g)
  else (.ok (), { g with root := removeAtNode g.root p, trace := g.trace ++ [.rm p] })

/-- `removeDirectorySync(dirPath)`: `if (fs.existsSync(dirPath)) fs.rmSync(...)`. -/
def removeDirectorySync (p : Path) : FsM Unit := do
  let b ← existsSync p
  if b then rmSyncRecForce p else FsM.pure ()

mutual
/-- Recursion of `copyDirectorySync` over the subtree read at entry: a
directory is re-created at the destination and its entries copied in listing
order; a file is copied with `fs.copyFileSync`. The source walks the live
tree; recursing over the entry snapshot coincides because every write of the
walk targets the destination subtree, and in every call site the destination
is a sibling of the source, never inside it. -/
def copyNodeM : FsNode → Path → Path → FsM Unit
  | .dir es, src, dest => do
    mkdirSyncRec dest
    copyEntriesM es src dest
  | .file _, src, dest => copyFileSync src dest

/-- Copy each child of a directory, in listing order (`files.forEach`). -/
def copyEntriesM : List (String × FsNode) → Path → Path → FsM Unit
  | [], _, _ => FsM.pure ()
  | e :: es, src, dest => do
    copyNodeM e.snd (src ++ [e.fst]) (dest ++ [e.fst])
    copyEntriesM es src dest
end

/-- `copyDirectorySync(src, dest)`: `fs.statSync(src)` throws when the source
is missing; otherwise dispatch on whether it is a directory. -/
def copyDirectorySync (src dest : Path) : FsM Unit := fun g =>
  match g.root.lookup src with
  | none => (.error "ENOENT stat", g)
  | some n => copyNodeM n src dest g

/-- `this.serverPath`, the `./minecraft-server` directory. -/
def serverPathC : Path := ["minecraft-server"]

/-- `this.config.server.levelName || 'world'`. -/
def worldName (c : Config) : String :=
  if c.server.levelName = "" then "world" else c.server.levelName

/-- `path.join(this.serverPath, this.config.server.levelName || 'world')`. -/
def worldPathC (c : Config) : Path := serverPathC ++ [worldName c]

/-- `new Date().toISOString().replace(/[:.]/g, '-')` applied to the
timestamp string supplied by the environment. -/
def sanitizeTimestamp (s : String) : String :=
  String.mk (s.data.map fun ch => if ch = ':' ∨ ch = '.' then '-' else ch)

/-- The backup directory name built in `backupExistingWorld`. -/
def backupNameC (c : Config) (now : String) : String :=
  worldName c ++ "_backup_" ++ sanitizeTimestamp now

def worldPathG (g : Guard) : Path := worldPathC g.config

def backupName (g : Guard) : String := backupNameC g.config g.now

def backupPathG (g : Guard) : Path := serverPathC ++ [backupName g]

/-- `config.server.seed || ""`; on the string model `s || ""` is the
identity, since the empty string maps to the empty string. -/
def currentSeedOf (c : Config) : String := c.server.seed

/-- `this.config.world?.lastUsedSeed || ""`. -/
def lastUsedSeedOf (c : Config) : String :=
  match c.world with
  | some w => w.lastUsedSeed
  | none => ""

/-- `updateWorldConfig(seed)`: overwrite the world-tracking block (creating
it if absent) with the seed as both current and last-used and the world not
yet generated, then `saveConfig()`. -/
def updateWorldConfig (seed : String) : FsM Unit :=
  FsM.modifyG fun g =>
    let cfg := { g.config with
      world := some { currentSeed := seed, lastUsedSeed := seed, worldGenerated := false } }
    { g with config := cfg, savedConfig := cfg }

/-- Result record of `backupExistingWorld`. -/
structure BackupResult where
  success : Bool
  backupPath : Option String := none
  error : Option String := none
  deriving DecidableEq, Repr

/-- `backupExistingWorld()`: inside a try/catch, create the backup directory,
copy the world into it, and only then remove the original world; any throw is
caught and reported as failure. Log-only calls are omitted. -/
def backupExistingWorld : FsM BackupResult :=
  FsM.tryCatchF
    (do
      let g ← FsM.get
      mkdirSyncRec (backupPathG g)
      copyDirectorySync (worldPathG g) (backupPathG g)
      removeDirectorySync (worldPathG g)
      FsM.pure { success := true, backupPath := some (backupName g), error := none })
    (fun e => FsM.pure { success := false, backupPath := none, error := some e })

/-- Reasons returned by `checkSeedChange`. -/
inductive SeedReason where
  | no_world_exists
  | seed_changed
  | seed_unchanged
  | backup_failed
  deriving DecidableEq, Repr

/-- Result record of `checkSeedChange`. -/
structure SeedCheck where
  shouldCreateNew : Bool
  reason : SeedReason
  backupPath : Option String := none
  deriving DecidableEq, Repr

/-- `checkSeedChange()`: decide whether a new world must be generated,
backing up and replacing the old one on a seed change, and keeping the old
one when the backup fails. Log-only calls are omitted. -/
def checkSeedChange : FsM SeedCheck := do
  let g ← FsM.get
  let currentSeed := currentSeedOf g.config
  let lastUsedSeed := lastUsedSeedOf g.config
  let worldExists ← existsSync (worldPathG g)
  if !worldExists then do
    updateWorldConfig currentSeed
    FsM.pure { shouldCreateNew := true, reason := .no_world_exists }
  else if currentSeed ≠ lastUsedSeed then do
    let backupResult ← backupExistingWorld
    if backupResult.success then do
      updateWorldConfig currentSeed
      FsM.pure { shouldCreateNew := true, reason := .seed_changed,
                 backupPath := backupResult.backupPath }
    else
      FsM.pure { shouldCreateNew := false, reason := .backup_failed }
  else
    FsM.pure { shouldCreateNew := false, reason := .seed_unchanged }

/-- `markWorldAsGenerated()`. -/
def markWorldAsGenerated : FsM Unit :=
  FsM.modifyG fun g =>
    let w :=
      match g.config.world with
      | some w => { w with worldGenerated := true }
      | none => { currentSeed := "", lastUsedSeed := "", worldGenerated := true }
    let cfg := { g.config with world := some w }
    { g with config := cfg, savedConfig := cfg }

/-- Whether `backupExistingWorld` run from this state reports failure. -/
def backupFails (g : Guard) : Bool :=
  match backupExistingWorld g with
  | (.ok br, _) => !br.success
  | (.error _, _) => true

/-- `needle.isPrefixOf` restated at each suffix: JavaScript
`hay.includes(needle)`. -/
def listIncludes (needle : List Char) : List Char → Bool
  | [] => needle.isPrefixOf ([] : List Char)
  | c :: t => needle.isPrefixOf (c :: t) || listIncludes needle t

/-- `hay.includes(sub)` on strings. -/
def strIncludes (hay sub : String) : Bool := listIncludes sub.data hay.data

/-- JavaScript `\w`: ASCII letter, digit or underscore. -/
def isWordChar (c : Char) : Bool := c.isAlphanum || c = '_'

/-- Length of the maximal word-character run at the front of a string. -/
def wordRunLen : List Char → Nat
  | [] => 0
  | c :: t => if isWordChar c then wordRunLen t + 1 else 0

/-- Backtracking of a greedy `\w+` group at the current position: try the
candidate lengths from the full word run downwards, accepting the first one
after which the literal suffix matches. -/
def tryBacktrack (suffixLit : List Char) (cs : List Char) : Nat → Option (List Char)
  | 0 => none
  | i + 1 =>
    if suffixLit.isPrefixOf (cs.drop (i + 1)) then some (cs.take (i + 1))
    else tryBacktrack suffixLit cs i

/-- Leftmost match of the pattern `(\w+)` followed by the literal suffix,
returning the captured group: the semantics of
`message.match(/(\w+) joined the game/)` and its `left` twin. -/
def scanMatch (suffixLit : List Char) : List Char → Option (List Char)
  | [] => none
  | c :: rest =>
    match tryBacktrack suffixLit (c :: rest) (wordRunLen (c :: rest)) with
    | some grp => some grp
    | none => scanMatch suffixLit rest

/-- Captured player name of `message.match(/(\w+) joined the game/)?.[1]`
(and the `left the game` variant), or `none` when the pattern has no match. -/
def extractPlayerName (suffixLit : List Char) (message : String) : Option String :=
  (scanMatch suffixLit message.data).map String.mk

/-- JavaScript string interpolation of a possibly-undefined capture:
`${playerName}` renders the literal text `undefined` when the match failed. -/
def nameOrUndefined (o : Option String) : String :=
  match o with
  | some n => n
  | none => "undefined"

/-- Result record of `parseMinecraftLog`. -/
structure ParsedLog where
  type : LogType
  message : String
  original : String
  deriving DecidableEq, Repr

/-- `parseMinecraftLog(message)`: the ordered chain of substring tests, first
match wins. A total pure function by construction: it returns a value of
`ParsedLog` for every input string and has no effects. -/
def parseMinecraftLog (message : String) : ParsedLog :=
  if strIncludes message "joined the game" then
    { type := .player,
      message := "🟢 " ++ nameOrUndefined (extractPlayerName " joined the game".data message)
        ++ " joined the game",
      original := message }
  else if strIncludes message "left the game" then
    { type := .player,
      message := "🔴 " ++ nameOrUndefined (extractPlayerName " left the game".data message)
        ++ " left the game",
      original := message }
  else if strIncludes message "<" && strIncludes message ">" then
    { type := .player, message := "💬 " ++ message, original := message }
  else if strIncludes message "Starting minecraft server version" then
    { type := .success, message := "🚀 " ++ message, original := message }
  else if strIncludes message "Done (" && strIncludes message "For help, type \"help\"" then
    { type := .success, message := "✅ Server startup complete! " ++ message, original := message }
  else if strIncludes message "Preparing spawn area" || strIncludes message "Preparing level" then
    { type := .world, message := "🌍 " ++ message, original := message }
  else if strIncludes message "Time elapsed:" then
    { type := .world, message := "⏱️ " ++ message, original := message }
  else if strIncludes message "Loading" && strIncludes message "plugin" then
    { type := .info, message := "🔌 " ++ message, original := message }
  else if strIncludes message "Enabling" && strIncludes message "plugin" then
    { type := .success, message := "✅ " ++ message, original := message }
  else if strIncludes message "Geyser" && strIncludes message "Started Geyser" then
    { type := .success, message := "🔗 Crossplay bridge (Geyser) is ONLINE!", original := message }
  else if strIncludes message "ViaVersion" && strIncludes message "enabled" then
    { type := .success, message := "🔄 Multi-version support (ViaVersion) is ONLINE!",
      original := message }
  else if strIncludes message "ERROR" || strIncludes message "SEVERE" then
    { type := .error, message := "❌ " ++ message, original := message }
  else if strIncludes message "WARN" then
    { type := .warn, message := "⚠️ " ++ message, original := message }
  else
    { type := .info, message := message, original := message }

/-- The classifier as an explicit ordered table of (predicate, formatter)
rules, written from the specification's reading of the classifier as a
first-match-wins rule list; compared against `parseMinecraftLog` below. -/
def ruleTable : List ((String → Bool) × (String → ParsedLog)) :=
  [ (fun m => strIncludes m "joined the game",
     fun m =>
       { type := .player,
         message := "🟢 " ++ nameOrUndefined (extractPlayerName " joined the game".data m)
           ++ " joined the game",
         original := m }),
    (fun m => strIncludes m "left the game",
     fun m =>
       { type := .player,
         message := "🔴 " ++ nameOrUndefined (extractPlayerName " left the game".data m)
           ++ " left the game",
         original := m }),
    (fun m => strIncludes m "<" && strIncludes m ">",
     fun m => { type := .player, message := "💬 " ++ m, original := m }),
    (fun m => strIncludes m "Starting minecraft server version",
     fun m => { type := .success, message := "🚀 " ++ m, original := m }),
    (fun m => strIncludes m "Done (" && strIncludes m "For help, type \"help\"",
     fun m => { type := .success, message := "✅ Server startup complete! " ++ m, original := m }),
    (fun m => strIncludes m "Preparing spawn area" || strIncludes m "Preparing level",
     fun m => { type := .world, message := "🌍 " ++ m, original := m }),
    (fun m => strIncludes m "Time elapsed:",
     fun m => { type := .world, message := "⏱️ " ++ m, original := m }),
    (fun m => strIncludes m "Loading" && strIncludes m "plugin",
     fun m => { type := .info, message := "🔌 " ++ m, original := m }),
    (fun m => strIncludes m "Enabling" && strIncludes m "plugin",
     fun m => { type := .success, message := "✅ " ++ m, original := m }),
    (fun m => strIncludes m "Geyser" && strIncludes m "Started Geyser",
     fun m =>
       { type := .success, message := "🔗 Crossplay bridge (Geyser) is ONLINE!",
         original := m }),
    (fun m => strIncludes m "ViaVersion" && strIncludes m "enabled",
     fun m =>
       { type := .success, message := "🔄 Multi-version support (ViaVersion) is ONLINE!",
         original := m }),
    (fun m => strIncludes m "ERROR" || strIncludes m "SEVERE",
     fun m => { type := .error, message := "❌ " ++ m, original := m }),
    (fun m => strIncludes m "WARN",
     fun m => { type := .warn, message := "⚠️ " ++ m, original := m }) ]

/-- First-match-wins application of an ordered rule table, defaulting to an
undecorated info entry. -/
def applyRules : List ((String → Bool) × (String → ParsedLog)) → String → ParsedLog
  | [], m => { type := .info, message := m, original := m }
  | r :: rs, m => if r.fst m then r.snd m else applyRules rs m

/-- One entry of the in-memory log store (`this.logs`). The wall-clock
fields of the JavaScript entry are environment inputs with no effect on any
behaviour and are not modelled. -/
structure LogEntry where
  message : String
  type : LogType
  deriving DecidableEq, Repr

/-- `this.maxLogs`. -/
def maxLogs : Nat := 1000

/-- The buffer update of `broadcastLog`: push the entry, then if the length
exceeds `maxLogs` keep only the most recent `maxLogs` entries
(`this.logs.slice(-this.maxLogs)`). -/
def pushLog (logs : List LogEntry) (e : LogEntry) : List LogEntry :=
  let l := logs ++ [e]
  if l.length > maxLogs then l.drop (l.length - maxLogs) else l

/-- Greedy `\s+ => \s+ 127.0.0.1: \d+` parse of the rest of a tunnel line
after the candidate address group, returning the digits of the port. -/
def parseArrowTail (cs : List Char) : Option String :=
  let sp1 := cs.span Char.isWhitespace
  if sp1.fst.isEmpty then none
  else
    match sp1.snd with
    | '=' :: '>' :: r2 =>
      let sp2 := r2.span Char.isWhitespace
      if sp2.fst.isEmpty then none
      else if "127.0.0.1:".data.isPrefixOf sp2.snd then
        let digits := (sp2.snd.drop 10).span Char.isDigit
        if digits.fst.isEmpty then none else some (String.mk digits.fst)
      else none
    | _ => none

/-- Lazy `(.+?)` group: the shortest non-empty prefix after which the arrow
tail parses; `acc` holds the reversed prefix consumed so far. -/
def findSplit (acc : List Char) : List Char → Option (List Char × String)
  | [] => none
  | c :: rest =>
    match parseArrowTail rest with
    | some digits => some ((c :: acc).reverse, digits)
    | none => findSplit (c :: acc) rest

/-- `line.match(/^(.+?)\s+=>\s+127\.0\.0\.1:(\d+)/)`: the untrimmed address
group and the port digits, or `none` when the line does not match. -/
def matchTunnelLine (line : String) : Option (String × String) :=
  (findSplit [] line.data).map fun pr => (String.mk pr.fst, pr.snd)

/-- `this.playitAddresses`: public address currently bound to the Java port
and to the Bedrock port (`null` before the tunnel reports one). -/
structure PlayitAddresses where
  java : Option String := none
  bedrock : Option String := none
  deriving DecidableEq, Repr

/-- `this.serverStatus`. -/
inductive ServerStatus where
  | offline
  | starting
  | online
  | stopping
  deriving DecidableEq, Repr

/-- Externally visible process actions: spawning the Java process, spawning
the playit binary, signalling the playit process, and writing to the Java
process's input channel. Process handles are numbered by a spawn counter. -/
inductive SysEvent where
  | spawnJava (pid : Nat) (args : List String)
  | spawnPlayit (pid : Nat)
  | killPlayit (pid : Nat) (signal : String)
  | stdinWrite (text : String)
  deriving DecidableEq, Repr

/-- Whether an event spawns the managed Java process. -/
def SysEvent.isSpawnJava : SysEvent → Bool
  | .spawnJava _ _ => true
  | _ => false

/-- The mutable fields of `MinecraftCrossplayServer` read or written by the
lifecycle operations, as one explicit state. `logs` is the bounded replay
buffer; `emitted` is the unbounded stream of entries broadcast to socket
clients (`this.io.emit`), recording every log call in order; `events` is the
trace of process actions; `clock` is the value `Date.now()` returns. -/
structure Sys where
  serverStatus : ServerStatus := .offline
  minecraftProcess : Option Nat := none
  startTime : Option Nat := none
  serverReady : Bool := false
  localIP : String := "localhost"
  publicIP : Option String := none
  playitInstalled : Bool := false
  playitProcess : Option Nat := none
  playitAddresses : PlayitAddresses := {}
  playitTunnelsDetected : Bool := false
  playitSetupUrl : Option String := none
  lastPlayitOutput : String := ""
  guard : Guard
  logs : List LogEntry := []
  emitted : List LogEntry := []
  clock : Nat := 0
  nextPid : Nat := 0
  events : List SysEvent := []

/-- `broadcastLog(message, type)`: append to the bounded buffer and emit the
entry to all connected clients. -/
def broadcastLogS (s : Sys) (message : String) (t : LogType) : Sys :=
  let e : LogEntry := { message := message, type := t }
  { s with logs := pushLog s.logs e, emitted := s.emitted ++ [e] }

/-- `resetPlayitState()`. -/
def resetPlayitState (s : Sys) : Sys :=
  { s with playitAddresses := {}, playitTunnelsDetected := false, playitSetupUrl := none }

/-- `stopPlayitTunnel()`: when a tunnel process exists, log, send SIGTERM,
drop the handle, and clear the bindings and the detected flag. -/
def stopPlayitTunnel (s : Sys) : Sys :=
  match s.playitProcess with
  | some pid =>
    let s := broadcastLogS s "🌐 Stopping Playit tunnels..." .info
    { s with events := s.events ++ [.killPlayit pid "SIGTERM"],
             playitProcess := none,
             playitAddresses := {},
             playitTunnelsDetected := false }
  | none => s

/-- `startPlayitTunnel()`. -/
def startPlayitTunnel (s : Sys) : Sys :=
  if !s.playitInstalled then
    broadcastLogS s "⚠️ Playit.gg not installed - skipping tunnel creation" .warn
  else
    match s.playitProcess with
    | some _ => broadcastLogS s "⚠️ Playit tunnel already running" .warn
    | none =>
      let s := broadcastLogS s "🌐 Starting Playit.gg tunnels for public access..." .info
      { s with playitProcess := some s.nextPid,
               nextPid := s.nextPid + 1,
               events := s.events ++ [.spawnPlayit s.nextPid] }

/-- JavaScript `String.prototype.trim`: strip whitespace from both ends. -/
def jsTrim (s : String) : String :=
  String.mk (((s.data.dropWhile Char.isWhitespace).reverse.dropWhile Char.isWhitespace).reverse)

/-- `output.split(String.fromCharCode 10)`: split a string at every newline
character, keeping empty segments. -/
def splitCharsOnNl : List Char → List (List Char)
  | [] => [[]]
  | c :: rest =>
    let r := splitCharsOnNl rest
    if c = '\n' then [] :: r
    else
      match r with
      | [] => [[c]]
      | h :: t => (c :: h) :: t

def splitLines (s : String) : List String := (splitCharsOnNl s.data).map String.mk

/-- One line of `parsePlayitOutput`: on a tunnel match, record that tunnels
were found and update the binding for a known port, logging only when the
observed address differs from the stored one. -/
def processTunnelLine (s : Sys) (found : Bool) (line : String) : Bool × Sys :=
  match matchTunnelLine line with
  | none => (found, s)
  | some am =>
    let address := jsTrim am.fst
    let port := am.snd
    if port = "25565" then
      if s.playitAddresses.java ≠ some address then
        let s := { s with playitAddresses := { s.playitAddresses with java := some address } }
        (true, broadcastLogS s ("🎮 Java tunnel ready: " ++ address) .success)
      else (true, s)
    else if port = "19132" then
      if s.playitAddresses.bedrock ≠ some address then
        let s := { s with playitAddresses := { s.playitAddresses with bedrock := some address } }
        (true, broadcastLogS s ("📱 Bedrock tunnel ready: " ++ address) .success)
      else (true, s)
    else (true, s)

/-- `parsePlayitOutput(output)`: split on newlines and process each line,
returning whether any tunnel line was found. -/
def parsePlayitOutput (s : Sys) (output : String) : Bool × Sys :=
  (splitLines output).foldl (fun acc line => processTunnelLine acc.snd acc.fst line) (false, s)

/-- The Java argument list built in `startMinecraftServer`. -/
def javaArgs (c : Config) : List String :=
  [ "-Xmx" ++ c.performance.maxMemory,
    "-Xms" ++ c.performance.minMemory,
    "-XX:+UseG1GC",
    "-XX:+UnlockExperimentalVMOptions",
    "-XX:MaxGCPauseMillis=100",
    "-jar",
    "paper-server.jar",
    "nogui" ]

/-- `this.publicIP || 'Detecting...'`. -/
def publicIPText (o : Option String) : String :=
  match o with
  | some ip => ip
  | none => "Detecting..."

/-- `${seedCheck.backupPath}` interpolation (it is always present on the
seed-changed branch). -/
def backupPathText (o : Option String) : String :=
  match o with
  | some p => p
  | none => "undefined"

/-- `startMinecraftServer()`: guarded by the live process handle; runs the
seed check, moves to Starting, records the start time, logs the startup
banner and configuration, optionally starts the tunnel, and spawns the Java
process. The stdout/stderr/close callbacks attached at spawn are modelled as
the separate event functions below. -/
def startMinecraftServer (s : Sys) : Sys :=
  match s.minecraftProcess with
  | some _ => broadcastLogS s "⚠️ Server already running" .warn
  | none =>
    match checkSeedChange s.guard with
    | (.error _, g') => { s with guard := g' }
    | (.ok seedCheck, g') =>
      let s := { s with guard := g' }
      let s :=
        if seedCheck.shouldCreateNew then
          if seedCheck.reason = .seed_changed then
            let s := broadcastLogS s
              ("🎉 New world will be generated with seed: " ++ s.guard.config.server.seed) .success
            broadcastLogS s
              ("📦 Previous world backed up as: " ++ backupPathText seedCheck.backupPath) .info
          else if seedCheck.reason = .no_world_exists then
            broadcastLogS s "🆕 Generating new world..." .success
          else s
        else s
      let s := { s with serverStatus := .starting, serverReady := false,
                        startTime := some s.clock }
      let s := broadcastLogS s "🚀 STARTING MINECRAFT CROSSPLAY SERVER" .success
      let s := broadcastLogS s ("🏠 Local IP: " ++ s.localIP) .info
      let s := broadcastLogS s ("🌐 Public IP: " ++ publicIPText s.publicIP) .info
      let s := broadcastLogS s
        ("🎮 Game mode: " ++ s.guard.config.server.gamemode ++ ", Difficulty: "
          ++ s.guard.config.server.difficulty) .info
      let s := broadcastLogS s ("👥 Max players: " ++ toString s.guard.config.server.maxPlayers) .info
      let s :=
        if s.guard.config.server.seed ≠ "" then
          broadcastLogS s ("🌱 World seed: " ++ s.guard.config.server.seed) .info
        else s
      let s :=
        if s.playitInstalled && s.guard.config.playit.autoStart then
          let s := broadcastLogS s "🌐 Playit.gg detected - Starting public tunnels..." .success
          startPlayitTunnel s
        else
          broadcastLogS s "⚠️ Playit.gg not installed - Server will only be available locally/LAN"
            .warn
      let s := broadcastLogS s "⏳ Please wait while server initializes..." .info
      let pid := s.nextPid
      { s with minecraftProcess := some pid,
               nextPid := pid + 1,
               events := s.events ++ [.spawnJava pid (javaArgs s.guard.config)] }

/-- Response of the HTTP control routes. -/
structure RouteResponse where
  success : Bool
  message : String
  status : Option String := none
  deriving DecidableEq, Repr

/-- The `POST /start` handler: a no-op response when the status is starting
or online, otherwise run `startMinecraftServer` and report starting. -/
def startRoute (s : Sys) : RouteResponse × Sys :=
  if s.serverStatus = .starting ∨ s.serverStatus = .online then
    ({ success := false, message := "Server is already starting or running" }, s)
  else
    let s' := startMinecraftServer s
    ({ success := true, message := "Server is starting...", status := some "starting" }, s')

/-- `${code}` for the exit code of a `close` event (`null` on a signal). -/
def codeText (code : Option Int) : String :=
  match code with
  | some n => toString n
  | none => "null"

/-- The `close` handler of the managed Java process: log the exit with a
category chosen by the exit code, drop the handle, go Offline, clear the
readiness flag and start time, reset the tunnel state, stop the tunnel, and
log crash or normal stop. -/
def minecraftCloseHandler (s : Sys) (code : Option Int) : Sys :=
  let s := broadcastLogS s ("⏹️ Minecraft server exited with code " ++ codeText code)
    (if code = some 0 then .info else .error)
  let s := { s with minecraftProcess := none, serverStatus := .offline,
                    serverReady := false, startTime := none }
  let s := resetPlayitState s
  let s := stopPlayitTunnel s
  if code ≠ some 0 then
    broadcastLogS s "💥 Server crashed! Check the error messages above." .error
  else
    broadcastLogS s "✅ Server stopped normally." .success

theorem findEntry_replaceEntry_self (es : List (String × FsNode)) (a : String) (v : FsNode) :
    findEntry (replaceEntry es a v) a = some v := by
  induction es with
  | nil => simp [replaceEntry, findEntry]
  | cons e es ih =>
    by_cases h : e.fst = a
    · simp [replaceEntry, findEntry, h]
    · simp [replaceEntry, findEntry, h, ih]

theorem findEntry_replaceEntry_ne (es : List (String × FsNode)) (a b : String) (v : FsNode)
    (hab : a ≠ b) : findEntry (replaceEntry es a v) b = findEntry es b := by
  induction es with
  | nil => simp [replaceEntry, findEntry, hab]
  | cons e es ih =>
    by_cases h : e.fst = a
    · simp [replaceEntry, findEntry, h, hab, Ne.symm hab]
    · simp only [replaceEntry, if_neg h, findEntry]
      by_cases hb : e.fst = b
      · simp [hb]
      · simp [hb, ih]

theorem findEntry_append_of_none (es : List (String × FsNode)) (a : String) (v : FsNode)
    (h : findEntry es a = none) : findEntry (es ++ [(a, v)]) a = some v := by
  induction es with
  | nil => simp [findEntry]
  | cons e es ih =>
    by_cases hf : e.fst = a
    · simp [findEntry, hf] at h
    · simp only [findEntry, if_neg hf] at h
      simp only [List.cons_append, findEntry, if_neg hf]
      exact ih h

theorem findEntry_append_ne (es : List (String × FsNode)) (a b : String) (v : FsNode)
    (hab : a ≠ b) : findEntry (es ++ [(a, v)]) b = findEntry es b := by
  induction es with
  | nil => simp [findEntry, hab]
  | cons e es ih =>
    by_cases hb : e.fst = b
    · simp [findEntry, hb]
    · simp [findEntry, hb, ih]

theorem pathsDiverge_append (p q r : Path) (h : pathsDiverge p q = true) :
    pathsDiverge (p ++ r) q = true := by
  induction p generalizing q with
  | nil => simp [pathsDiverge] at h
  | cons a as ih =>
    cases q with
    | nil => simp [pathsDiverge] at h
    | cons b bs =>
      simp only [pathsDiverge, Bool.or_eq_true] at h
      rcases h with h | h
      · simp [pathsDiverge, h]
      · simp [pathsDiverge, ih bs h]

theorem pathsDiverge_ne_nil (p q : Path) (h : pathsDiverge p q = true) : q ≠ [] := by
  intro hq
  subst hq
  cases p <;> simp [pathsDiverge] at h

theorem lookup_dirNil_of_ne_nil (q : Path) (hq : q ≠ []) :
    FsNode.lookup (.dir []) q = none := by
  cases q with
  | nil => exact absurd rfl hq
  | cons b bs => simp [FsNode.lookup, findEntry]

theorem mkdirsNode_frame (p : Path) :
    ∀ (n n' : FsNode) (q : Path), mkdirsNode n p = some n' → pathsDiverge p q = true →
      n'.lookup q = n.lookup q := by
  induction p with
  | nil => intro n n' q h hd; simp [pathsDiverge] at hd
  | cons a rest ih =>
    intro n n' q h hd
    cases q with
    | nil => simp [pathsDiverge] at hd
    | cons b bs =>
      simp only [pathsDiverge, Bool.or_eq_true, bne_iff_ne] at hd
      cases n with
      | file c => simp [mkdirsNode] at h
      | dir es =>
        cases hfe : findEntry es a with
        | some c =>
          rw [mkdirsNode, hfe] at h
          simp only [Option.map_eq_some'] at h
          obtain ⟨c', hc', rfl⟩ := h
          by_cases hab : a = b
          · subst hab
            have hdiv : pathsDiverge rest bs = true := by
              rcases hd with h | h
              · exact absurd rfl h
              · exact h
            simp only [FsNode.lookup, findEntry_replaceEntry_self, hfe]
            exact ih c c' bs hc' hdiv
          · simp only [FsNode.lookup, findEntry_replaceEntry_ne es a b c' hab]
        | none =>
          rw [mkdirsNode, hfe] at h
          simp only [Option.map_eq_some'] at h
          obtain ⟨c', hc', rfl⟩ := h
          by_cases hab : a = b
          · subst hab
            have hdiv : pathsDiverge rest bs = true := by
              rcases hd with h | h
              · exact absurd rfl h
              · exact h
            simp only [FsNode.lookup, findEntry_append_of_none es a c' hfe, hfe]
            rw [ih (.dir []) c' bs hc' hdiv]
            exact lookup_dirNil_of_ne_nil bs (pathsDiverge_ne_nil rest bs hdiv)
          · simp only [FsNode.lookup, findEntry_append_ne es a b c' hab]

theorem setAtNode_frame (p : Path) :
    ∀ (n n' v : FsNode) (q : Path), setAtNode n p v = some n' → pathsDiverge p q = true →
      n'.lookup q = n.lookup q := by
  induction p with
  | nil => intro n n' v q h hd; simp [pathsDiverge] at hd
  | cons a rest ih =>
    intro n n' v q h hd
    cases q with
    | nil => simp [pathsDiverge] at hd
    | cons b bs =>
      simp only [pathsDiverge, Bool.or_eq_true, bne_iff_ne] at hd
      cases n with
      | file c =>
        cases rest <;> simp [setAtNode] at h
      | dir es =>
        cases rest with
        | nil =>
          cases hfe : findEntry es a with
          | some c =>
            rw [setAtNode, hfe] at h
            simp only [setAtNode, Option.map_some', Option.some.injEq] at h
            subst h
            by_cases hab : a = b
            · subst hab
              rcases hd with h | h
              · exact absurd rfl h
              · simp [pathsDiverge] at h
            · simp only [FsNode.lookup, findEntry_replaceEntry_ne es a b v hab]
          | none =>
            rw [setAtNode, hfe] at h
            simp only [Option.some.injEq] at h
            subst h
            by_cases hab : a = b
            · subst hab
              rcases hd with h | h
              · exact absurd rfl h
              · simp [pathsDiverge] at h
            · simp only [FsNode.lookup, findEntry_append_ne es a b v hab]
        | cons r rs =>
          cases hfe : findEntry es a with
          | some c =>
            rw [setAtNode, hfe] at h
            simp only [Option.map_eq_some'] at h
            obtain ⟨c', hc', rfl⟩ := h
            by_cases hab : a = b
            · subst hab
              have hdiv : pathsDiverge (r :: rs) bs = true := by
                rcases hd with h | h
                · exact absurd rfl h
                · exact h
              simp only [FsNode.lookup, findEntry_replaceEntry_self, hfe]
              exact ih c c' v bs hc' hdiv
            · simp only [FsNode.lookup, findEntry_replaceEntry_ne es a b c' hab]
          | none =>
            rw [setAtNode, hfe] at h
            simp at h

/-- Footprint of one step of the backup copy phase: everything outside the
destination subtree resolves as before, the configuration (in memory and on
disk), the fault set and the clock are untouched, and the trace grows only
by non-delete events. -/
def CopyStep (dest : Path) (g g' : Guard) : Prop :=
  (∀ q, pathsDiverge dest q = true → g'.root.lookup q = g.root.lookup q) ∧
  g'.config = g.config ∧ g'.savedConfig = g.savedConfig ∧
  g'.failPaths = g.failPaths ∧ g'.now = g.now ∧
  ∃ t, g'.trace = g.trace ++ t ∧ ∀ e ∈ t, e.isRm = false

theorem copyStep_rfl (dest : Path) (g : Guard) : CopyStep dest g g :=
  ⟨fun _ _ => rfl, rfl, rfl, rfl, rfl, [], by simp, by simp⟩

theorem copyStep_trans {dest : Path} {g₁ g₂ g₃ : Guard}
    (h₁ : CopyStep dest g₁ g₂) (h₂ : CopyStep dest g₂ g₃) : CopyStep dest g₁ g₃ := by
  obtain ⟨f₁, c₁, s₁, p₁, n₁, t₁, ht₁, hn₁⟩ := h₁
  obtain ⟨f₂, c₂, s₂, p₂, n₂, t₂, ht₂, hn₂⟩ := h₂
  refine ⟨fun q hq => (f₂ q hq).trans (f₁ q hq), c₂.trans c₁, s₂.trans s₁,
    p₂.trans p₁, n₂.trans n₁, t₁ ++ t₂, ?_, ?_⟩
  · rw [ht₂, ht₁, List.append_assoc]
  · intro e he
    rcases List.mem_append.mp he with h | h
    · exact hn₁ e h
    · exact hn₂ e h

theorem copyStep_widen {dest : Path} (r : Path) {g g' : Guard}
    (h : CopyStep (dest ++ r) g g') : CopyStep dest g g' := by
  obtain ⟨f, c, s, p, n, t, ht, hn⟩ := h
  exact ⟨fun q hq => f q (pathsDiverge_append dest q r hq), c, s, p, n, t, ht, hn⟩

theorem mkdirSyncRec_copyStep (p : Path) (g : Guard) :
    CopyStep p g ((mkdirSyncRec p) g).2 := by
  unfold mkdirSyncRec
  by_cases hf : g.failPaths.contains p
  · simp only [if_pos hf]
    exact copyStep_rfl p g
  · simp only [if_neg hf]
    cases hmk : mkdirsNode g.root p with
    | none => exact copyStep_rfl p g
    | some r =>
      refine ⟨fun q hq => mkdirsNode_frame p g.root r q hmk hq, rfl, rfl, rfl, rfl,
        [.mkdir p], rfl, ?_⟩
      intro e he
      simp at he
      subst he
      rfl

theorem copyFileSync_copyStep (src dest : Path) (g : Guard) :
    CopyStep dest g ((copyFileSync src dest) g).2 := by
  have hframe : ∀ (c : String) (r : FsNode), setAtNode g.root dest (.file c) = some r →
      CopyStep dest g
        { g with root := r, trace := g.trace ++ [.copyFile src dest] } := by
    intro c r hset
    refine ⟨fun q hq => setAtNode_frame dest g.root r (.file c) q hset hq, rfl, rfl,
      rfl, rfl, [.copyFile src dest], rfl, ?_⟩
    intro e he
    simp at he
    subst he
    rfl
  unfold copyFileSync
  split
  · exact copyStep_rfl dest g
  · split
    · split
      · exact copyStep_rfl dest g
      · split
        · rename_i r hset
          exact hframe _ r hset
        · exact copyStep_rfl dest g
    · exact copyStep_rfl dest g
    · exact copyStep_rfl dest g

mutual
theorem copyNodeM_step : ∀ (n : FsNode) (src dest : Path) (g : Guard),
    CopyStep dest g ((copyNodeM n src dest) g).2
  | .file c, src, dest, g => copyFileSync_copyStep src dest g
  | .dir es, src, dest, g => by
    show CopyStep dest g ((copyNodeM (.dir es) src dest) g).2
    rw [copyNodeM]
    simp only [FsM.bind_eq, FsM.bind]
    rcases hmk : (mkdirSyncRec dest) g with ⟨res, g₁⟩
    have h₁ : CopyStep dest g g₁ := by
      have := mkdirSyncRec_copyStep dest g
      rwa [hmk] at this
    cases res with
    | error e => exact h₁
    | ok _ => exact copyStep_trans h₁ (copyEntriesM_step es src dest g₁)

theorem copyEntriesM_step : ∀ (es : List (String × FsNode)) (src dest : Path) (g : Guard),
    CopyStep dest g ((copyEntriesM es src dest) g).2
  | [], _, dest, g => copyStep_rfl dest g
  | e :: es, src, dest, g => by
    show CopyStep dest g ((copyEntriesM (e :: es) src dest) g).2
    rw [copyEntriesM]
    simp only [FsM.bind_eq, FsM.bind]
    rcases hch : (copyNodeM e.snd (src ++ [e.fst]) (dest ++ [e.fst])) g with ⟨res, g₁⟩
    have h₁ : CopyStep dest g g₁ := by
      have := copyNodeM_step e.snd (src ++ [e.fst]) (dest ++ [e.fst]) g
      rw [hch] at this
      exact copyStep_widen [e.fst] this
    cases res with
    | error err => exact h₁
    | ok _ => exact copyStep_trans h₁ (copyEntriesM_step es src dest g₁)
end

theorem copyDirectorySync_copyStep (src dest : Path) (g : Guard) :
    CopyStep dest g ((copyDirectorySync src dest) g).2 := by
  unfold copyDirectorySync
  cases h : g.root.lookup src with
  | none => exact copyStep_rfl dest g
  | some n => exact copyNodeM_step n src dest g

theorem backupName_ne_worldName (c : Config) (now : String) :
    backupNameC c now ≠ worldName c := by
  intro h
  have hlen := congrArg String.length h
  rw [backupNameC, String.length_append, String.length_append] at hlen
  have h8 : ("_backup_" : String).length = 8 := by decide
  omega

theorem pathsDiverge_backup_world (g : Guard) :
    pathsDiverge (backupPathG g) (worldPathG g) = true := by
  simp only [backupPathG, worldPathG, worldPathC, serverPathC, List.cons_append,
    List.nil_append, pathsDiverge, bne_self_eq_false, Bool.false_or, Bool.or_eq_true,
    bne_iff_ne]
  exact Or.inl (backupName_ne_worldName g.config g.now)

/-- Characterization of every run of `backupExistingWorld`: it never throws,
never touches the configuration, and its trace decomposes as a delete-free
part followed — only when the whole operation succeeded, after a successful
mkdir-and-copy phase — by the single recursive delete of the world
directory. On failure the world directory resolves exactly as before. -/
theorem backup_run_cases (g : Guard) :
    ∃ br g', backupExistingWorld g = (.ok br, g') ∧
      g'.config = g.config ∧ g'.savedConfig = g.savedConfig ∧
      g'.failPaths = g.failPaths ∧ g'.now = g.now ∧
      ∃ tc, (∀ e ∈ tc, e.isRm = false) ∧
        ((br.success = false ∧ br.backupPath = none ∧ g'.trace = g.trace ++ tc ∧
          g'.root.lookup (worldPathG g) = g.root.lookup (worldPathG g)) ∨
         (br = { success := true, backupPath := some (backupName g), error := none } ∧
          g'.trace = (g.trace ++ tc) ++ [.rm (worldPathG g)] ∧
          ∃ g₂, (mkdirSyncRec (backupPathG g) >>= fun _ =>
            copyDirectorySync (worldPathG g) (backupPathG g)) g = (.ok (), g₂) ∧
            g₂.trace = g.trace ++ tc)) := by
  have hdiv := pathsDiverge_backup_world g
  rcases hA : (mkdirSyncRec (backupPathG g)) g with ⟨resA, g₁⟩
  have hStepA : CopyStep (backupPathG g) g g₁ := by
    have := mkdirSyncRec_copyStep (backupPathG g) g
    rwa [hA] at this
  cases resA with
  | error e =>
    obtain ⟨fr, hc, hs, hp, hn, t, ht, hrm⟩ := hStepA
    refine ⟨{ success := false, backupPath := none, error := some e }, g₁, ?_, hc, hs, hp, hn,
      t, hrm, Or.inl ⟨rfl, rfl, ht, fr _ hdiv⟩⟩
    simp only [backupExistingWorld, FsM.tryCatchF, FsM.bind_eq, FsM.bind, FsM.get, hA,
      FsM.pure]
  | ok _ =>
    rcases hB : (copyDirectorySync (worldPathG g) (backupPathG g)) g₁ with ⟨resB, g₂⟩
    have hStepB : CopyStep (backupPathG g) g₁ g₂ := by
      have := copyDirectorySync_copyStep (worldPathG g) (backupPathG g) g₁
      rwa [hB] at this
    have hAB : CopyStep (backupPathG g) g g₂ := copyStep_trans hStepA hStepB
    cases resB with
    | error e =>
      obtain ⟨fr, hc, hs, hp, hn, t, ht, hrm⟩ := hAB
      refine ⟨{ success := false, backupPath := none, error := some e }, g₂, ?_, hc, hs, hp, hn,
        t, hrm, Or.inl ⟨rfl, rfl, ht, fr _ hdiv⟩⟩
      simp only [backupExistingWorld, FsM.tryCatchF, FsM.bind_eq, FsM.bind, FsM.get, hA, hB,
        FsM.pure]
    | ok _ =>
      have hsome : (g₂.root.lookup (worldPathG g)).isSome = true := by
        have hfr₂ := hStepB.1 _ hdiv
        rw [hfr₂]
        revert hB
        unfold copyDirectorySync
        cases g₁.root.lookup (worldPathG g) with
        | none => intro hB; exact absurd (congrArg Prod.fst hB) (by simp)
        | some n => intro _; rfl
      by_cases hfp : g₂.failPaths.contains (worldPathG g)
      · obtain ⟨fr, hc, hs, hp, hn, t, ht, hrm⟩ := hAB
        refine ⟨{ success := false, backupPath := none, error := some "EACCES rm" }, g₂, ?_,
          hc, hs, hp, hn, t, hrm, Or.inl ⟨rfl, rfl, ht, fr _ hdiv⟩⟩
        simp only [backupExistingWorld, FsM.tryCatchF, FsM.bind_eq, FsM.bind, FsM.get, hA, hB,
          removeDirectorySync, existsSync, hsome, if_pos, rmSyncRecForce, if_pos hfp, FsM.pure]
      · obtain ⟨fr, hc, hs, hp, hn, t, ht, hrm⟩ := hAB
        refine ⟨{ success := true, backupPath := some (backupName g), error := none },
          { g₂ with root := removeAtNode g₂.root (worldPathG g),
                    trace := g₂.trace ++ [.rm (worldPathG g)] }, ?_, hc, hs, hp, hn,
          t, hrm, Or.inr ⟨rfl, ?_, g₂, ?_, ht⟩⟩
        · simp only [backupExistingWorld, FsM.tryCatchF, FsM.bind_eq, FsM.bind, FsM.get, hA, hB,
            removeDirectorySync, existsSync, hsome, if_pos, rmSyncRecForce, if_neg hfp,
            FsM.pure]
        · simp only [ht]
        · simp only [FsM.bind_eq, FsM.bind, hA, hB]

/-- C1: when the world directory exists, the seeds differ and the backup
operation fails, `checkSeedChange` answers shouldCreateNew false with reason
backup_failed, the world directory subtree resolves exactly as before, and
neither the in-memory configuration nor the persisted configuration
changes. -/
theorem checkSeedChange_backup_failed_safe (g : Guard)
    (hw : (g.root.lookup (worldPathG g)).isSome = true)
    (hs : currentSeedOf g.config ≠ lastUsedSeedOf g.config)
    (hf : backupFails g = true) :
    (checkSeedChange g).1 =
      .ok { shouldCreateNew := false, reason := .backup_failed, backupPath := none } ∧
    (checkSeedChange g).2.root.lookup (worldPathG g) = g.root.lookup (worldPathG g) ∧
    (checkSeedChange g).2.config = g.config ∧
    (checkSeedChange g).2.savedConfig = g.savedConfig := by
  obtain ⟨br, g', hrun, hcfg, hsv, _, _, tc, hnc, hcases⟩ := backup_run_cases g
  have hbs : br.success = false := by
    unfold backupFails at hf
    rw [hrun] at hf
    simpa using hf
  rcases hcases with ⟨_, _, htr, hlk⟩ | ⟨hbr, _⟩
  · have hrunEq : checkSeedChange g =
        (.ok { shouldCreateNew := false, reason := .backup_failed, backupPath := none }, g') := by
      simp [checkSeedChange, FsM.bind, FsM.get, existsSync, hw, hs, hrun, hbs, FsM.pure]
    rw [hrunEq]
    exact ⟨rfl, hlk, hcfg, hsv⟩
  · rw [hbr] at hbs
    simp at hbs

def rootC1 : FsNode :=
  .dir [("minecraft-server", .dir [("world", .dir [("region", .file "chunks")])])]

def cfgC1 : Config :=
  { server := { seed := "newseed" },
    world := some { currentSeed := "newseed", lastUsedSeed := "old", worldGenerated := true } }

def gC1 : Guard :=
  { root := rootC1,
    failPaths := [["minecraft-server", "world_backup_2026-10-11T00-00-00-000Z"]],
    config := cfgC1, savedConfig := cfgC1, now := "2026-10-11T00:00:00.000Z" }

/-- Witness for C1: a state with a world on disk, a changed seed and an
unwritable backup destination satisfies the hypotheses, and the theorem
applies. -/
theorem checkSeedChange_backup_failed_safe_witness :
    ((gC1.root.lookup (worldPathG gC1)).isSome = true ∧
     currentSeedOf gC1.config ≠ lastUsedSeedOf gC1.config ∧
     backupFails gC1 = true) ∧
    ((checkSeedChange gC1).1 =
      .ok { shouldCreateNew := false, reason := .backup_failed, backupPath := none } ∧
     (checkSeedChange gC1).2.root.lookup (worldPathG gC1) = gC1.root.lookup (worldPathG gC1) ∧
     (checkSeedChange gC1).2.config = gC1.config ∧
     (checkSeedChange gC1).2.savedConfig = gC1.savedConfig) :=
  ⟨⟨by decide, by decide, by decide⟩,
   checkSeedChange_backup_failed_safe gC1 (by decide) (by decide) (by decide)⟩

/-- C2: in every run of `backupExistingWorld` the trace splits into a
delete-free part and, only when the operation succeeded, the single
recursive delete of the world directory at the very end; a delete happens
only after the mkdir-and-copy phase has completed without error, and when no
delete happens the operation reports failure. -/
theorem backup_copy_then_delete (g : Guard) :
    ∃ tc, (∀ e ∈ tc, e.isRm = false) ∧
      (((backupExistingWorld g).2.trace = g.trace ++ tc ∧
        ∀ br, (backupExistingWorld g).1 = .ok br → br.success = false) ∨
       ((backupExistingWorld g).2.trace = (g.trace ++ tc) ++ [.rm (worldPathG g)] ∧
        (backupExistingWorld g).1 =
          .ok { success := true, backupPath := some (backupName g), error := none } ∧
        ∃ g₂, (mkdirSyncRec (backupPathG g) >>= fun _ =>
          copyDirectorySync (worldPathG g) (backupPathG g)) g = (.ok (), g₂) ∧
          g₂.trace = g.trace ++ tc)) := by
  obtain ⟨br, g', hrun, _, _, _, _, tc, hnc, hcases⟩ := backup_run_cases g
  refine ⟨tc, hnc, ?_⟩
  rcases hcases with ⟨hbs, _, htr, _⟩ | ⟨hbr, htr, g₂, hcp, htc⟩
  · left
    rw [hrun]
    refine ⟨htr, fun br2 h => ?_⟩
    injection h with h2
    rw [← h2]
    exact hbs
  · right
    rw [hrun]
    exact ⟨htr, by rw [hbr], g₂, hcp, htc⟩

def gC2 : Guard :=
  { root := rootC1, failPaths := [], config := cfgC1, savedConfig := cfgC1,
    now := "2026-10-11T00:00:00.000Z" }

/-- Witness for C2: the trace decomposition instantiated at a concrete state
with a world on disk. -/
theorem backup_copy_then_delete_witness :
    ∃ tc, (∀ e ∈ tc, e.isRm = false) ∧
      (((backupExistingWorld gC2).2.trace = gC2.trace ++ tc ∧
        ∀ br, (backupExistingWorld gC2).1 = .ok br → br.success = false) ∨
       ((backupExistingWorld gC2).2.trace = (gC2.trace ++ tc) ++ [.rm (worldPathG gC2)] ∧
        (backupExistingWorld gC2).1 =
          .ok { success := true, backupPath := some (backupName gC2), error := none } ∧
        ∃ g₂, (mkdirSyncRec (backupPathG gC2) >>= fun _ =>
          copyDirectorySync (worldPathG gC2) (backupPathG gC2)) gC2 = (.ok (), g₂) ∧
          g₂.trace = gC2.trace ++ tc)) :=
  backup_copy_then_delete gC2

/-- The configuration produced by `updateWorldConfig seed`: the
world-tracking block holds the seed as both current and last-used with the
world marked not yet generated. -/
def worldResetConfig (c : Config) (seed : String) : Config :=
  { c with
    world := some { currentSeed := seed, lastUsedSeed := seed, worldGenerated := false } }

/-- C3: when no world directory exists, `checkSeedChange` answers
shouldCreateNew true with reason no_world_exists — with no hypothesis on the
seeds, so regardless of whether they agree — and rewrites the world-tracking
block with the configured seed as both current and last-used and
worldGenerated false, persisting the updated configuration. -/
theorem checkSeedChange_no_world (g : Guard)
    (hw : (g.root.lookup (worldPathG g)).isSome = false) :
    checkSeedChange g =
      (.ok { shouldCreateNew := true, reason := .no_world_exists, backupPath := none },
       { g with config := worldResetConfig g.config (currentSeedOf g.config),
                savedConfig := worldResetConfig g.config (currentSeedOf g.config) }) := by
  simp [checkSeedChange, FsM.bind, FsM.get, existsSync, hw, updateWorldConfig, FsM.modifyG,
    FsM.pure, worldResetConfig]

def gC3 : Guard :=
  { root := .dir [("minecraft-server", .dir [])], failPaths := [],
    config := cfgC1, savedConfig := cfgC1, now := "t" }

/-- Witness for C3: a state without a world directory, and with differing
seeds, satisfies the hypothesis and the theorem applies. -/
theorem checkSeedChange_no_world_witness :
    ((gC3.root.lookup (worldPathG gC3)).isSome = false ∧
     currentSeedOf gC3.config ≠ lastUsedSeedOf gC3.config) ∧
    checkSeedChange gC3 =
      (.ok { shouldCreateNew := true, reason := .no_world_exists, backupPath := none },
       { gC3 with config := worldResetConfig gC3.config (currentSeedOf gC3.config),
                  savedConfig := worldResetConfig gC3.config (currentSeedOf gC3.config) }) :=
  ⟨⟨by decide, by decide⟩, checkSeedChange_no_world gC3 (by decide)⟩

theorem length_append_one (l : List LogEntry) (e : LogEntry) :
    (l ++ [e]).length = l.length + 1 := by
  rw [List.length_append, List.length_cons, List.length_nil]

theorem pushLog_eq_drop (l : List LogEntry) (e : LogEntry) :
    pushLog l e = (l ++ [e]).drop (l.length + 1 - maxLogs) := by
  simp only [pushLog, length_append_one]
  by_cases hgt : l.length + 1 > maxLogs
  · rw [if_pos hgt]
  · rw [if_neg hgt]
    have h0 : l.length + 1 - maxLogs = 0 := by omega
    rw [h0, List.drop_zero]

theorem foldl_pushLog_drop (es : List LogEntry) :
    ∀ l : List LogEntry, l.length ≤ maxLogs →
      es.foldl pushLog l = (l ++ es).drop (l.length + es.length - maxLogs) := by
  induction es with
  | nil =>
    intro l h
    have h0 : l.length - maxLogs = 0 := by omega
    simp [h0]
  | cons e es ih =>
    intro l h
    have hle : (pushLog l e).length ≤ maxLogs := by
      rw [pushLog_eq_drop, List.length_drop, length_append_one]
      omega
    rw [List.foldl_cons, ih (pushLog l e) hle, pushLog_eq_drop]
    have hk : l.length + 1 - maxLogs ≤ (l ++ [e]).length := by
      rw [length_append_one]
      omega
    rw [← List.drop_append_of_le_length hk, List.drop_drop]
    rw [show (l ++ [e]) ++ es = l ++ e :: es by simp]
    have harith : l.length + 1 - maxLogs
        + (((l ++ [e]).drop (l.length + 1 - maxLogs)).length + es.length - maxLogs)
        = l.length + (e :: es).length - maxLogs := by
      rw [List.length_drop, length_append_one, List.length_cons]
      omega
    rw [harith]

/-- C7: the buffer update used by `broadcastLog` keeps, after any sequence of
appends into an initially empty buffer, exactly the most recent `maxLogs`
entries in their original order: the result is `es.drop (es.length - 1000)`,
hence never longer than 1000, and appending 1500 entries leaves exactly the
most recent 1000 (entries 500 onward) with length exactly 1000. -/
theorem broadcast_buffer_bounded :
    (∀ (s : Sys) (msg : String) (t : LogType),
      (broadcastLogS s msg t).logs = pushLog s.logs { message := msg, type := t }) ∧
    (∀ es : List LogEntry, es.foldl pushLog [] = es.drop (es.length - maxLogs)) ∧
    (∀ es : List LogEntry, (es.foldl pushLog []).length ≤ maxLogs) ∧
    (∀ es : List LogEntry, es.length = 1500 →
      es.foldl pushLog [] = es.drop 500 ∧ (es.foldl pushLog []).length = 1000) := by
  have hmain : ∀ es : List LogEntry, es.foldl pushLog [] = es.drop (es.length - maxLogs) := by
    intro es
    have h := foldl_pushLog_drop es [] (by rw [List.length_nil]; exact Nat.zero_le _)
    simp only [List.nil_append, List.length_nil, Nat.zero_add] at h
    exact h
  refine ⟨fun s msg t => rfl, hmain, ?_, ?_⟩
  · intro es
    rw [hmain]
    simp only [List.length_drop, maxLogs]
    omega
  · intro es h
    constructor
    · rw [hmain, h]
      norm_num [maxLogs]
    · rw [hmain]
      simp only [List.length_drop, maxLogs, h]

/-- Witness for C7: appending 1500 identical entries to the empty buffer
leaves exactly the most recent 1000. -/
theorem broadcast_buffer_bounded_witness :
    (List.replicate 1500 ({ message := "x", type := .info } : LogEntry)).foldl pushLog []
        = (List.replicate 1500 ({ message := "x", type := .info } : LogEntry)).drop 500 ∧
    ((List.replicate 1500 ({ message := "x", type := .info } : LogEntry)).foldl
        pushLog []).length = 1000 :=
  broadcast_buffer_bounded.2.2.2 _ (by rw [List.length_replicate])

/-- C6: `parseMinecraftLog` is a total pure Lean function (it returns a
`ParsedLog` for every string, the empty string included, with no effects and
no exceptions, so identical inputs give identical outputs by definition); it
coincides on every input with first-match-wins application of the ordered
rule table; and classifying "Alice joined the game" yields category player
with a decorated message containing "Alice" and "joined". -/
theorem parseMinecraftLog_rules :
    (∀ m, parseMinecraftLog m = applyRules ruleTable m) ∧
    parseMinecraftLog "" = { type := .info, message := "", original := "" } ∧
    parseMinecraftLog "Alice joined the game" =
      { type := .player, message := "🟢 Alice joined the game",
        original := "Alice joined the game" } ∧
    strIncludes (parseMinecraftLog "Alice joined the game").message "Alice" = true ∧
    strIncludes (parseMinecraftLog "Alice joined the game").message "joined" = true :=
  ⟨fun _ => rfl, by decide, by decide, by decide, by decide⟩

/-- C10: a line containing "joined the game" on which the capture pattern
`(\w+) joined the game` has no match is still classified player, and the
decorated message contains the literal text "undefined" where the player
name would go. -/
theorem parse_join_undefined (m : String)
    (h1 : strIncludes m "joined the game" = true)
    (h2 : extractPlayerName " joined the game".data m = none) :
    (parseMinecraftLog m).type = .player ∧
    strIncludes (parseMinecraftLog m).message "undefined" = true := by
  have hform : parseMinecraftLog m =
      { type := .player, message := "🟢 " ++ nameOrUndefined none ++ " joined the game",
        original := m } := by
    simp [parseMinecraftLog, h1, h2]
  rw [hform]
  refine ⟨rfl, ?_⟩
  show strIncludes ("🟢 " ++ nameOrUndefined none ++ " joined the game") "undefined" = true
  decide

/-- Witness for C10: the bare line "joined the game" satisfies both
hypotheses and the theorem applies. -/
theorem parse_join_undefined_witness :
    (strIncludes "joined the game" "joined the game" = true ∧
     extractPlayerName " joined the game".data "joined the game" = none) ∧
    ((parseMinecraftLog "joined the game").type = .player ∧
     strIncludes (parseMinecraftLog "joined the game").message "undefined" = true) :=
  ⟨⟨by decide, by decide⟩, parse_join_undefined "joined the game" (by decide) (by decide)⟩

def sStop : Sys :=
  { serverStatus := .stopping, minecraftProcess := some 7, startTime := some 5,
    serverReady := true, guard := gC2, nextPid := 8 }

/-- Counterexample for C4 as stated: in the Stopping state the `/start`
handler does not return the no-op "already active" result (success false,
"Server is already starting or running"); it answers success true with
"Server is starting..." — even though the process guard then prevents any
second spawn. -/
theorem start_route_stopping_not_noop :
    (startRoute sStop).fst =
      { success := true, message := "Server is starting...", status := some "starting" } ∧
    (startRoute sStop).fst.success ≠ false ∧
    (startRoute sStop).snd.events = sStop.events ∧
    (startRoute sStop).snd.minecraftProcess = some 7 := by
  refine ⟨rfl, by decide, rfl, rfl⟩

/-- C4 (amended): `/start` from Starting or Online returns the no-op
"already active" result with the state fully unchanged; from Stopping with a
live process handle the handler incorrectly reports success
"Server is starting...", but the process guard spawns nothing — the handle,
the lifecycle state, the spawn counter and the event trace are unchanged,
and only a warning log is appended. In all these cases exactly the one
existing managed process remains. -/
theorem start_route_active_guard (s : Sys)
    (h : s.serverStatus = .starting ∨ s.serverStatus = .online ∨
      (s.serverStatus = .stopping ∧ s.minecraftProcess.isSome = true)) :
    (startRoute s).snd.minecraftProcess = s.minecraftProcess ∧
    (startRoute s).snd.serverStatus = s.serverStatus ∧
    (startRoute s).snd.events = s.events ∧
    (startRoute s).snd.nextPid = s.nextPid ∧
    (startRoute s).snd.guard = s.guard ∧
    ((s.serverStatus = .starting ∨ s.serverStatus = .online) →
      (startRoute s).fst =
        { success := false, message := "Server is already starting or running",
          status := none } ∧
      (startRoute s).snd = s) ∧
    (s.serverStatus = .stopping →
      (startRoute s).fst =
        { success := true, message := "Server is starting...", status := some "starting" } ∧
      (startRoute s).snd = broadcastLogS s "⚠️ Server already running" .warn) := by
  rcases h with h1 | h1 | ⟨h1, h2⟩
  · have hroute : startRoute s =
        ({ success := false, message := "Server is already starting or running",
           status := none }, s) := by
      rw [startRoute, if_pos (Or.inl h1)]
    rw [hroute]
    refine ⟨rfl, rfl, rfl, rfl, rfl, fun _ => ⟨rfl, rfl⟩, fun h2 => ?_⟩
    rw [h1] at h2
    cases h2
  · have hroute : startRoute s =
        ({ success := false, message := "Server is already starting or running",
           status := none }, s) := by
      rw [startRoute, if_pos (Or.inr h1)]
    rw [hroute]
    refine ⟨rfl, rfl, rfl, rfl, rfl, fun _ => ⟨rfl, rfl⟩, fun h2 => ?_⟩
    rw [h1] at h2
    cases h2
  · obtain ⟨pid, hp⟩ := Option.isSome_iff_exists.mp h2
    have hnot : ¬(s.serverStatus = .starting ∨ s.serverStatus = .online) := by
      rw [h1]
      rintro (h | h) <;> cases h
    have hstart : startMinecraftServer s = broadcastLogS s "⚠️ Server already running" .warn := by
      rw [startMinecraftServer, hp]
    have hroute : startRoute s =
        ({ success := true, message := "Server is starting...", status := some "starting" },
         broadcastLogS s "⚠️ Server already running" .warn) := by
      rw [startRoute, if_neg hnot, hstart]
    rw [hroute]
    refine ⟨by simp [broadcastLogS], by simp [broadcastLogS], by simp [broadcastLogS],
      by simp [broadcastLogS], by simp [broadcastLogS], fun hc => absurd hc hnot,
      fun _ => ⟨rfl, rfl⟩⟩

def sC4w : Sys :=
  { serverStatus := .starting, minecraftProcess := some 3, startTime := some 1,
    serverReady := false, guard := gC2, nextPid := 4 }

/-- Witness for C4 (amended): a Starting state satisfies the hypothesis and
the theorem applies. -/
theorem start_route_active_guard_witness :
    (sC4w.serverStatus = .starting ∨ sC4w.serverStatus = .online ∨
      (sC4w.serverStatus = .stopping ∧ sC4w.minecraftProcess.isSome = true)) ∧
    ((startRoute sC4w).snd.minecraftProcess = sC4w.minecraftProcess ∧
     (startRoute sC4w).snd.serverStatus = sC4w.serverStatus ∧
     (startRoute sC4w).snd.events = sC4w.events ∧
     (startRoute sC4w).snd.nextPid = sC4w.nextPid ∧
     (startRoute sC4w).snd.guard = sC4w.guard ∧
     ((sC4w.serverStatus = .starting ∨ sC4w.serverStatus = .online) →
       (startRoute sC4w).fst =
         { success := false, message := "Server is already starting or running",
           status := none } ∧
       (startRoute sC4w).snd = sC4w) ∧
     (sC4w.serverStatus = .stopping →
       (startRoute sC4w).fst =
         { success := true, message := "Server is starting...", status := some "starting" } ∧
       (startRoute sC4w).snd = broadcastLogS sC4w "⚠️ Server already running" .warn)) :=
  ⟨Or.inl rfl, start_route_active_guard sC4w (Or.inl rfl)⟩

def sC5 : Sys :=
  { serverStatus := .online, minecraftProcess := some 3, startTime := some 1,
    serverReady := true, playitProcess := none, guard := gC2 }

/-- Counterexample for C5 as stated: on exit code 0 the "stopped normally"
entry is success-classified, not info-classified — no info-classified entry
mentioning "stopped normally" is ever produced (the info-classified entry
says "exited with code 0" instead). -/
theorem close_zero_not_info_stopped :
    ({ message := "✅ Server stopped normally.", type := .success } ∈
      (minecraftCloseHandler sC5 (some 0)).emitted) ∧
    ((minecraftCloseHandler sC5 (some 0)).emitted.all
      (fun e => !(e.type == LogType.info && strIncludes e.message "stopped normally"))) =
        true := by
  exact ⟨by decide, by decide⟩

/-- C5 (amended): on any termination of the managed process, from any state,
the server goes Offline with the handle dropped, the start timestamp and
readiness cleared, and the tunnel supervisor forced to Idle with bindings,
detected flag and setup URL cleared; the only process action is the SIGTERM
to a running tunnel — in particular no spawn, so no automatic restart; exit
code 0 yields an info-classified "exited with code 0" entry and a
success-classified "Server stopped normally." entry, any other exit yields
error-classified "exited with code ..." and "Server crashed!" entries. -/
theorem close_handler_offline (s : Sys) (code : Option Int) :
    (minecraftCloseHandler s code).serverStatus = .offline ∧
    (minecraftCloseHandler s code).minecraftProcess = none ∧
    (minecraftCloseHandler s code).startTime = none ∧
    (minecraftCloseHandler s code).serverReady = false ∧
    (minecraftCloseHandler s code).playitProcess = none ∧
    (minecraftCloseHandler s code).playitAddresses = { java := none, bedrock := none } ∧
    (minecraftCloseHandler s code).playitSetupUrl = none ∧
    (minecraftCloseHandler s code).playitTunnelsDetected = false ∧
    (minecraftCloseHandler s code).events = s.events ++
      (match s.playitProcess with
       | some pid => [.killPlayit pid "SIGTERM"]
       | none => []) ∧
    (minecraftCloseHandler s code).emitted = s.emitted ++
      [{ message := "⏹️ Minecraft server exited with code " ++ codeText code,
         type := if code = some 0 then .info else .error }] ++
      (match s.playitProcess with
       | some _ => [{ message := "🌐 Stopping Playit tunnels...", type := .info }]
       | none => []) ++
      [if code = some 0 then
         ({ message := "✅ Server stopped normally.", type := .success } : LogEntry)
       else { message := "💥 Server crashed! Check the error messages above.",
              type := .error }] := by
  by_cases hc : code = some 0 <;>
    cases hp : s.playitProcess <;>
      simp [minecraftCloseHandler, broadcastLogS, resetPlayitState, stopPlayitTunnel, hp, hc]

def sC9 : Sys :=
  { serverStatus := .starting, minecraftProcess := some 3,
    playitProcess := some 4, playitSetupUrl := some "https://playit.gg/claim/abc",
    playitAddresses := { java := some "a.playit.gg", bedrock := none },
    playitTunnelsDetected := true, guard := gC2 }

/-- Counterexample for C9 as stated: `stopPlayitTunnel` clears the bindings
but leaves the setup URL observable — it does not clear `playitSetupUrl`
(only `resetPlayitState` does). -/
theorem stop_tunnel_keeps_setup_url :
    (stopPlayitTunnel sC9).playitProcess = none ∧
    (stopPlayitTunnel sC9).playitAddresses = { java := none, bedrock := none } ∧
    (stopPlayitTunnel sC9).playitSetupUrl = some "https://playit.gg/claim/abc" ∧
    (stopPlayitTunnel sC9).playitSetupUrl ≠ none := by
  exact ⟨rfl, rfl, rfl, by decide⟩

/-- C9 (amended): whenever a tunnel process is running, `stopPlayitTunnel`
sends it SIGTERM and immediately clears both port bindings and the detected
flag, dropping the handle — but it leaves the setup-URL state unchanged; that
field is cleared separately by `resetPlayitState`, which the callers invoke
alongside the stop. -/
theorem stop_tunnel_clears_bindings (s : Sys) (pid : Nat)
    (hp : s.playitProcess = some pid) :
    stopPlayitTunnel s =
      { s with
        logs := pushLog s.logs { message := "🌐 Stopping Playit tunnels...", type := .info },
        emitted := s.emitted ++ [{ message := "🌐 Stopping Playit tunnels...", type := .info }],
        events := s.events ++ [.killPlayit pid "SIGTERM"],
        playitProcess := none,
        playitAddresses := { java := none, bedrock := none },
        playitTunnelsDetected := false } := by
  rw [stopPlayitTunnel, hp]
  rfl

/-- Witness for C9 (amended): applied to a state with a running tunnel,
bindings set and a setup URL recorded. -/
theorem stop_tunnel_clears_bindings_witness :
    sC9.playitProcess = some 4 ∧
    stopPlayitTunnel sC9 =
      { sC9 with
        logs := pushLog sC9.logs { message := "🌐 Stopping Playit tunnels...", type := .info },
        emitted := sC9.emitted ++
          [{ message := "🌐 Stopping Playit tunnels...", type := .info }],
        events := sC9.events ++ [.killPlayit 4 "SIGTERM"],
        playitProcess := none,
        playitAddresses := { java := none, bedrock := none },
        playitTunnelsDetected := false } :=
  ⟨rfl, stop_tunnel_clears_bindings sC9 4 rfl⟩

/-- C8: processing the tunnel line for port 25565 sets the Java binding to
the reported address and leaves the Bedrock binding, the setup URL and the
lifecycle state untouched; symmetrically the port 19132 line sets only the
Bedrock binding; and a binding is re-logged only on change — when the stored
binding already equals the address the whole state is unchanged, and
otherwise exactly one "tunnel ready" entry is emitted. -/
theorem playit_binding_update (s : Sys) :
    (parsePlayitOutput s "myaddr.playit.gg => 127.0.0.1:25565").fst = true ∧
    (parsePlayitOutput s "myaddr.playit.gg => 127.0.0.1:25565").snd.playitAddresses.java
      = some "myaddr.playit.gg" ∧
    (parsePlayitOutput s "myaddr.playit.gg => 127.0.0.1:25565").snd.playitAddresses.bedrock
      = s.playitAddresses.bedrock ∧
    (parsePlayitOutput s "myaddr.playit.gg => 127.0.0.1:25565").snd.playitSetupUrl
      = s.playitSetupUrl ∧
    (parsePlayitOutput s "myaddr.playit.gg => 127.0.0.1:25565").snd.serverStatus
      = s.serverStatus ∧
    (s.playitAddresses.java = some "myaddr.playit.gg" →
      parsePlayitOutput s "myaddr.playit.gg => 127.0.0.1:25565" = (true, s)) ∧
    (s.playitAddresses.java ≠ some "myaddr.playit.gg" →
      (parsePlayitOutput s "myaddr.playit.gg => 127.0.0.1:25565").snd.emitted
        = s.emitted ++
          [{ message := "🎮 Java tunnel ready: myaddr.playit.gg", type := .success }]) ∧
    (parsePlayitOutput s "myaddr.playit.gg => 127.0.0.1:19132").snd.playitAddresses.bedrock
      = some "myaddr.playit.gg" ∧
    (parsePlayitOutput s "myaddr.playit.gg => 127.0.0.1:19132").snd.playitAddresses.java
      = s.playitAddresses.java ∧
    (s.playitAddresses.bedrock = some "myaddr.playit.gg" →
      parsePlayitOutput s "myaddr.playit.gg => 127.0.0.1:19132" = (true, s)) := by
  have htr : jsTrim "myaddr.playit.gg" = "myaddr.playit.gg" := by decide
  have h25 : parsePlayitOutput s "myaddr.playit.gg => 127.0.0.1:25565" =
      if s.playitAddresses.java ≠ some "myaddr.playit.gg" then
        (true, broadcastLogS
          { s with playitAddresses := { s.playitAddresses with java := some "myaddr.playit.gg" } }
          "🎮 Java tunnel ready: myaddr.playit.gg" .success)
      else (true, s) := by
    have hm1 : matchTunnelLine "myaddr.playit.gg => 127.0.0.1:25565"
        = some ("myaddr.playit.gg", "25565") := by decide
    have hs1 : splitLines "myaddr.playit.gg => 127.0.0.1:25565"
        = ["myaddr.playit.gg => 127.0.0.1:25565"] := by decide
    rw [parsePlayitOutput, hs1, List.foldl_cons, List.foldl_nil]
    simp only [processTunnelLine, hm1, htr, if_true, reduceIte, String.reduceAppend]
  have h19 : parsePlayitOutput s "myaddr.playit.gg => 127.0.0.1:19132" =
      if s.playitAddresses.bedrock ≠ some "myaddr.playit.gg" then
        (true, broadcastLogS
          { s with playitAddresses := { s.playitAddresses with bedrock := some "myaddr.playit.gg" } }
          "📱 Bedrock tunnel ready: myaddr.playit.gg" .success)
      else (true, s) := by
    have hm2 : matchTunnelLine "myaddr.playit.gg => 127.0.0.1:19132"
        = some ("myaddr.playit.gg", "19132") := by decide
    have hs2 : splitLines "myaddr.playit.gg => 127.0.0.1:19132"
        = ["myaddr.playit.gg => 127.0.0.1:19132"] := by decide
    rw [parsePlayitOutput, hs2, List.foldl_cons, List.foldl_nil]
    simp only [processTunnelLine, hm2, htr, if_true, reduceIte, String.reduceAppend]
    rw [if_neg (by decide : ¬("19132" : String) = "25565")]
  rw [h25, h19]
  by_cases hj : s.playitAddresses.java = some "myaddr.playit.gg" <;>
    by_cases hb : s.playitAddresses.bedrock = some "myaddr.playit.gg" <;>
      simp [hj, hb, broadcastLogS]

def sC8 : Sys := { guard := gC2, playitAddresses := { java := none, bedrock := none } }

/-- Witness for C8: starting from empty bindings, the Java line binds the
Java address, leaves Bedrock empty, and emits exactly one "tunnel ready"
entry. -/
theorem playit_binding_update_witness :
    (parsePlayitOutput sC8 "myaddr.playit.gg => 127.0.0.1:25565").fst = true ∧
    (parsePlayitOutput sC8 "myaddr.playit.gg => 127.0.0.1:25565").snd.playitAddresses.java
      = some "myaddr.playit.gg" ∧
    (parsePlayitOutput sC8 "myaddr.playit.gg => 127.0.0.1:25565").snd.playitAddresses.bedrock
      = none ∧
    (parsePlayitOutput sC8 "myaddr.playit.gg => 127.0.0.1:25565").snd.emitted
      = [{ message := "🎮 Java tunnel ready: myaddr.playit.gg", type := .success }] := by
  have h := playit_binding_update sC8
  exact ⟨h.1, h.2.1, h.2.2.1, h.2.2.2.2.2.2.1 (by decide)⟩

end HostMC
